import Mathlib

/-!
Verification of the diff-to-report pipeline implemented in
`scripts/summarize_and_review.py`.

The Python functions are shallowly embedded as executable Lean functions.
Strings are processed as lists of characters; the regular expressions of the
source are unfolded into explicit character-level scanners.  The embedding
assumes `\n` line endings (the form git produces on Linux) and ASCII inputs
for the character classes `\d`, `\w`, `\s` (the Python regexes are
Unicode-aware, but the diff/stat text handled here is ASCII).

External effects are explicit parameters:
  * the filesystem (`Path.exists` / `st_size`) is a function
    `String → Option Nat` (`none` = path does not exist or `stat` raised);
  * the latest commit message (`commit_message_hint`) is a string parameter;
  * the report timestamp `datetime.utcnow().isoformat() + "Z"` is a string
    parameter `now`;
  * the iteration order of Python's `set(...)` over strings depends on the
    per-process hash seed, so it is a function parameter
    `setEnum : List String → List String` applied where the source iterates
    over `set(added_funcs)` / `set(removed_funcs)`.
-/

/-! ## Character classes and basic string helpers -/

/-- ASCII model of Python's whitespace class (used by `str.strip` and `\s`):
space, tab, newline, carriage return, vertical tab, form feed. -/
def isPySpace (c : Char) : Bool :=
  c = ' ' || c = '\t' || c = '\n' || c = '\r' || c = Char.ofNat 11 || c = Char.ofNat 12

/-- ASCII model of the regex class `\w`: letters, digits, underscore. -/
def isPyWordChar (c : Char) : Bool :=
  c.isAlpha || c.isDigit || c = '_'

/-- ASCII model of the regex class `[A-Za-z_]` (identifier start). -/
def isPyIdentStart (c : Char) : Bool :=
  c.isAlpha || c = '_'

/-- Python `str.strip()` (ASCII whitespace model). -/
def pyStrip (s : String) : String :=
  String.mk (((s.toList.dropWhile isPySpace).reverse.dropWhile isPySpace).reverse)

/-- `pre.isPrefixOf s`, on strings (Python `str.startswith`). -/
def startsWithS (s pre : String) : Bool :=
  pre.toList.isPrefixOf s.toList

/-- `suf.isSuffixOf s`, on strings (Python `str.endswith`). -/
def endsWithS (s suf : String) : Bool :=
  suf.toList.isSuffixOf s.toList

/-- Substring containment on character lists (Python `sub in s`). -/
def containsCL (pat : List Char) : List Char → Bool
  | [] => pat.isEmpty
  | c :: cs => pat.isPrefixOf (c :: cs) || containsCL pat cs

/-- Substring containment on strings (Python `sub in s`). -/
def containsStr (s sub : String) : Bool :=
  containsCL sub.toList s.toList

/-- Python `str.lower()` (ASCII model). -/
def pyLower (s : String) : String :=
  String.mk (s.toList.map Char.toLower)

/-- Split a character list on a separator character; mirrors Python
`str.split(sep)` for a one-character separator. -/
def splitOnChar (sep : Char) : List Char → List (List Char)
  | [] => [[]]
  | c :: cs =>
    match splitOnChar sep cs with
    | [] => [[]]
    | r :: rs => if c = sep then [] :: r :: rs else (c :: r) :: rs

/-- Python `str.splitlines()` for `\n`-terminated text: split on `\n` and
drop the final empty piece produced by a trailing newline. -/
def pySplitlines (s : String) : List String :=
  if s = "" then []
  else
    let parts := (splitOnChar '\n' s.toList).map String.mk
    if parts.getLast? = some "" then parts.dropLast else parts

/-- Match `pat` as a literal at the front of `l`, returning the remainder. -/
def dropPrefixCL : List Char → List Char → Option (List Char)
  | [], l => some l
  | _ :: _, [] => none
  | p :: ps, c :: cs => if p = c then dropPrefixCL ps cs else none

/-- Occurrence count of an element in a list (Python's implicit counting in
"exactly one entry" properties). -/
def countOcc [DecidableEq α] (a : α) : List α → Nat
  | [] => 0
  | x :: xs => (if x = a then 1 else 0) + countOcc a xs

/-! ## `list_changed_files_from_stat` -/

/-- The regex `^\d+ file(s)? changed` of `list_changed_files_from_stat`
(`re.match`, i.e. anchored at the start): one or more digits followed by
`" file changed"` or `" files changed"`. -/
def isSummaryLineB (l : String) : Bool :=
  let cl := l.toList
  !(cl.takeWhile Char.isDigit).isEmpty &&
    (let rest := cl.dropWhile Char.isDigit
     (" file changed".toList.isPrefixOf rest) || (" files changed".toList.isPrefixOf rest))

/-- The text before the first `|` of a stat line (`line.split("|")[0]`). -/
def statLinePath (l : String) : String :=
  pyStrip (String.mk ((splitOnChar '|' l.toList).headD []))

/-- `list_changed_files_from_stat(stat_text)`: strip each line, skip empty
lines and `N file(s) changed` summary lines, and collect the stripped text
before the `|` separator, in order. -/
def list_changed_files_from_stat (stat_text : String) : List String :=
  (pySplitlines stat_text).foldl
    (fun files line =>
      let line := pyStrip line
      if line = "" then files
      else if isSummaryLineB line then files
      else files ++ [statLinePath line])
    []

/-- Declarative rendering of the spec sentence for the stat parser: exclude
every line matching the summary regex, keep the remaining non-empty stripped
lines in order, and return the text before the `|` of each. -/
def changedFilesSpec (stat_text : String) : List String :=
  (((pySplitlines stat_text).map pyStrip).filter
    (fun l => !(l = "") && !(isSummaryLineB l))).map statLinePath

/-! ## `size_checks_for_files` -/

/-- `size_checks_for_files(changed_files)`: the filesystem is abstracted as
`fs : String → Option Nat` (`none` when the path does not exist, or when
`Path.stat` raises and the `except` swallows it).  Collects `(path, size)`
for every listed path whose size exceeds `500 * 1024` bytes. -/
def size_checks_for_files (fs : String → Option Nat) (changed_files : List String) :
    List (String × Nat) :=
  changed_files.foldl
    (fun heavy p =>
      match fs p with
      | some sz => if 500 * 1024 < sz then heavy ++ [(p, sz)] else heavy
      | none => heavy)
    []

/-! ## `detect_binary_files` and `simple_test_detection` -/

/-- `detect_binary_files(patch_text)`: keep the stripped form of each line
containing both `"Binary files "` and `" differ"`. -/
def detect_binary_files (patch_text : String) : List String :=
  (pySplitlines patch_text).foldl
    (fun binaries line =>
      if containsStr line "Binary files " && containsStr line " differ" then
        binaries ++ [pyStrip line]
      else binaries)
    []

/-- `simple_test_detection(changed_files)`: true when some changed path looks
like source (`src/` or `app/` prefix, or `.py` suffix) and no changed path
looks like a test (`tests/` or `test_` prefix, or a `/tests/` segment). -/
def simple_test_detection (changed_files : List String) : Bool :=
  (changed_files.any fun p => startsWithS p "src/" || startsWithS p "app/" || endsWithS p ".py")
  && !(changed_files.any fun p =>
        startsWithS p "tests/" || startsWithS p "test_" || containsStr p "/tests/")

/-! ## `dump_pdf_from_markdown` -/

/-- Outcome of the document-rendering step: either the external renderer
(reportlab) produced a paginated document, or the fallback wrote plain text
into the target path. -/
inductive PdfResult where
  | renderedDocument : PdfResult
  | fallbackText (contents : String) : PdfResult
deriving DecidableEq

/-- Contents written to the target path by the fallback branch, if any. -/
def writtenFallbackText : PdfResult → Option String
  | PdfResult.renderedDocument => none
  | PdfResult.fallbackText contents => some contents

/-- `dump_pdf_from_markdown(md_text, pdf_file)`: if the reportlab import
succeeds, the external renderer builds the document (out of scope here,
modelled opaquely) and the function returns `True`; if the import fails, the
markdown text itself is written to the target path and the function returns
`False`.  Either way the function returns rather than raising. -/
def dump_pdf_from_markdown (reportlabAvailable : Bool) (md_text : String) :
    PdfResult × Bool :=
  if reportlabAvailable then (PdfResult.renderedDocument, true)
  else (PdfResult.fallbackText md_text, false)

/-! ## Regex scanners used by `english_summary_from_patch` -/

/-- Anchored match of `kw` + `\s+` + `([A-Za-z_]\w*)` + `\s*` + one of
`enders`, returning the captured identifier.  With `kw := "def".toList` and
`enders := ['(']` this is `re.match(r"def\s+([A-Za-z_]\w*)\s*\(", code)`;
with `kw := "class".toList` and `enders := [':', '(']` it is
`re.match(r"class\s+([A-Za-z_]\w*)\s*[:\(]", code)`. -/
def matchKwIdent (kw : List Char) (enders : List Char) (l : List Char) : Option String :=
  match dropPrefixCL kw l with
  | none => none
  | some r1 =>
    if (r1.takeWhile isPySpace).isEmpty then none
    else
      let r2 := r1.dropWhile isPySpace
      match r2 with
      | [] => none
      | c :: _ =>
        if isPyIdentStart c then
          let name := r2.takeWhile isPyWordChar
          let r3 := (r2.dropWhile isPyWordChar).dropWhile isPySpace
          match r3 with
          | [] => none
          | d :: _ => if enders.contains d then some (String.mk name) else none
        else none

/-- Anchored match of `print\s*\(` at the head of `l`. -/
def matchPrintAt (l : List Char) : Bool :=
  match dropPrefixCL "print".toList l with
  | none => false
  | some r =>
    match r.dropWhile isPySpace with
    | '(' :: _ => true
    | _ => false

/-- Helper for `re.search(r"\bprint\s*\(", code)`: the flag records whether
the previous character allows a word boundary before `print`. -/
def searchPrintCallAux : Bool → List Char → Bool
  | _, [] => false
  | bOk, c :: cs => (bOk && matchPrintAt (c :: cs)) || searchPrintCallAux (!isPyWordChar c) cs

/-- `re.search(r"\bprint\s*\(", code)` as a boolean. -/
def searchPrintCall (l : List Char) : Bool :=
  searchPrintCallAux true l

/-- Unanchored search for `def\s+([A-Za-z_]\w*)\s*\(` inside a line; used by
the `re.findall(r'^\+.*def\s+([A-Za-z_]\w*)\s*\(', patch, re.MULTILINE)`
docstring heuristic of `build_review_recommendations`. -/
def searchDefPattern : List Char → Bool
  | [] => false
  | c :: cs => (matchKwIdent "def".toList ['('] (c :: cs)).isSome || searchDefPattern cs

/-! ## The analyzer state of `english_summary_from_patch` -/

/-- Mutable locals of the `english_summary_from_patch` loop.
`modifiedFiles` models the Python set by insertion-ordered membership (only
its sorted element list is ever observed); `currentFile` is `none` until the
first `+++ b/` header line assigns it (reading it while `none` is the
`NameError` of the source). -/
structure EngState where
  results : List String
  addedFuncs : List String
  removedFuncs : List String
  todos : List String
  modifiedFiles : List String
  currentFile : Option String
deriving DecidableEq, Repr

/-- The loop state before the first line. -/
def initEngState : EngState :=
  { results := [], addedFuncs := [], removedFuncs := [], todos := [],
    modifiedFiles := [], currentFile := none }

/-- Python `line.replace("+++ b/", "")`: remove every occurrence of the
header marker, left to right (fuel-driven structural recursion; the fuel is
the length of the list, enough for every step). -/
def stripHeaderMarkerAux : Nat → List Char → List Char
  | 0, l => l
  | _ + 1, [] => []
  | fuel + 1, c :: cs =>
    match dropPrefixCL "+++ b/".toList (c :: cs) with
    | some rest => stripHeaderMarkerAux fuel rest
    | none => c :: stripHeaderMarkerAux fuel cs

/-- Python `line.replace("+++ b/", "")`. -/
def stripHeaderMarker (s : String) : String :=
  String.mk (stripHeaderMarkerAux s.toList.length s.toList)

/-- The `if line.startswith("+++ b/")` branch: record the current file and
add it to the modified-file set. -/
def engHeaderStep (st : EngState) (line : String) : EngState :=
  if startsWithS line "+++ b/" then
    let cf := pyStrip (stripHeaderMarker line)
    { st with currentFile := some cf,
              modifiedFiles :=
                if st.modifiedFiles.contains cf then st.modifiedFiles
                else st.modifiedFiles ++ [cf] }
  else st

/-- The class-definition check of the added-line branch; reads
`current_file`, so it fails (`NameError`) when that is unbound. -/
def engClassStep (st : EngState) (code : String) : Option EngState :=
  match matchKwIdent "class".toList [':', '('] code.toList with
  | some n =>
    match st.currentFile with
    | some f =>
      some { st with results :=
        st.results ++ ["Introduced class `" ++ n ++ "` in `" ++ f ++ "`."] }
    | none => none
  | none => some st

/-- The TODO/FIXME check shared by the added-line and removed-line branches. -/
def engTodoStep (st : EngState) (code : String) : EngState :=
  if containsStr code "TODO" || containsStr code "FIXME" then
    { st with todos := st.todos ++ [code] }
  else st

/-- The print-statement check of the added-line branch; reads `current_file`. -/
def engPrintStep (st : EngState) (code : String) : Option EngState :=
  if searchPrintCall code.toList then
    match st.currentFile with
    | some f =>
      some { st with results :=
        st.results ++ ["Added print/logging statement in `" ++ f ++ "`: `" ++ code ++ "`"] }
    | none => none
  else some st

/-- The generic assignment/expression check of the added-line branch; reads
`current_file`.  The recorded snippet is `code[:120]`. -/
def engAssignStep (st : EngState) (code : String) : Option EngState :=
  if code.toList.contains '=' && !startsWithS code "#" then
    match st.currentFile with
    | some f =>
      some { st with results :=
        st.results ++ ["Added/changed assignment or expression in `" ++ f ++ "`: `"
          ++ String.mk (code.toList.take 120) ++ "`"] }
    | none => none
  else some st

/-- The function-definition check of the added-line branch (appends to
`added_funcs`; never reads `current_file`). -/
def engDefAddStep (st : EngState) (code : String) : EngState :=
  match matchKwIdent "def".toList ['('] code.toList with
  | some n => { st with addedFuncs := st.addedFuncs ++ [n] }
  | none => st

/-- The function-definition check of the removed-line branch (appends to
`removed_funcs`). -/
def engDefRemoveStep (st : EngState) (code : String) : EngState :=
  match matchKwIdent "def".toList ['('] code.toList with
  | some n => { st with removedFuncs := st.removedFuncs ++ [n] }
  | none => st

/-- The whole added-line branch (`line.startswith("+")` and not `"+++"`),
applied to the stripped code `line[1:].strip()`: function-definition check,
class check, TODO check, print check, assignment check, in source order. -/
def engAddedStep (st : EngState) (code : String) : Option EngState :=
  (engClassStep (engDefAddStep st code) code).bind fun st2 =>
    (engPrintStep (engTodoStep st2 code) code).bind fun st4 =>
      engAssignStep st4 code

/-- The removed-line branch (`line.startswith("-")` and not `"---"`):
function-definition check and TODO check.  Never reads `current_file`. -/
def engRemovedStep (st : EngState) (code : String) : EngState :=
  engTodoStep (engDefRemoveStep st code) code

/-- The added-line condition `line.startswith("+") and not line.startswith("+++")`. -/
def isAddedLineB (line : String) : Bool :=
  startsWithS line "+" && !startsWithS line "+++"

/-- The removed-line condition `line.startswith("-") and not line.startswith("---")`. -/
def isRemovedLineB (line : String) : Bool :=
  startsWithS line "-" && !startsWithS line "---"

/-- One iteration of the `english_summary_from_patch` loop on one diff line. -/
def processEngLine (st : EngState) (line : String) : Option EngState :=
  let st1 := engHeaderStep st line
  if isAddedLineB line then engAddedStep st1 (pyStrip (String.mk (line.toList.drop 1)))
  else if isRemovedLineB line then
    some (engRemovedStep st1 (pyStrip (String.mk (line.toList.drop 1))))
  else some st1

/-- The `english_summary_from_patch` loop over all diff lines. -/
def engFold : EngState → List String → Option EngState
  | st, [] => some st
  | st, l :: ls =>
    match processEngLine st l with
    | none => none
    | some st2 => engFold st2 ls

/-- One step of the final de-duplication pass of `english_summary_from_patch`
(`if r not in dedup: dedup.append(r)`). -/
def dedupStep (acc : List String) (r : String) : List String :=
  if acc.contains r then acc else acc ++ [r]

/-- The final de-duplication pass of `english_summary_from_patch`
(`for r in results: if r not in dedup: dedup.append(r)`). -/
def dedupKeepFirst (l : List String) : List String :=
  l.foldl dedupStep []

/-- Lexicographic strict order on character lists by code point, the order
Python uses to compare strings. -/
def charListLt : List Char → List Char → Bool
  | [], [] => false
  | [], _ :: _ => true
  | _ :: _, [] => false
  | a :: as, b :: bs =>
    if a.toNat < b.toNat then true
    else if b.toNat < a.toNat then false
    else charListLt as bs

/-- Non-strict string comparison by code points (Python `<=`). -/
def strLeB (s t : String) : Bool :=
  !charListLt t.toList s.toList

/-- Ascending insertion of a string into a sorted list. -/
def insertSorted (x : String) : List String → List String
  | [] => [x]
  | y :: ys => if strLeB x y then x :: y :: ys else y :: insertSorted x ys

/-- Python `sorted(...)` on strings (ascending, stable). -/
def sortStrings (l : List String) : List String :=
  l.foldr insertSorted []

/-- `english_summary_from_patch(patch_text)`, returning
`(results, todos, sorted modified files)`, or `none` for the `NameError`
raised when `current_file` is read before any `+++ b/` header line.
`setEnum` is the iteration order of Python's `set(...)` (hash-seed
dependent); the source appends one `Added function ...` / `Removed
function ...` entry per distinct name after the line loop. -/
def english_summary_from_patch (setEnum : List String → List String)
    (patch_text : String) : Option (List String × List String × List String) :=
  (engFold initEngState (pySplitlines patch_text)).map fun st =>
    let results := st.results
      ++ (if st.addedFuncs = [] then []
          else (setEnum st.addedFuncs).map fun fn => "Added function `" ++ fn ++ "()`.")
      ++ (if st.removedFuncs = [] then []
          else (setEnum st.removedFuncs).map fun fn => "Removed function `" ++ fn ++ "()`.")
    (dedupKeepFirst results, st.todos, sortStrings st.modifiedFiles)

/-- First-occurrence enumeration of a list's distinct elements: one concrete
iteration order Python's `set(...)` may exhibit, used to run the model on
concrete inputs. -/
def pySetList (l : List String) : List String :=
  l.foldl (fun acc x => if acc.contains x then acc else acc ++ [x]) []

/-! ## Derived predicates used to state the claims -/

/-- A `+++ b/` file-header line. -/
def isHeaderB (line : String) : Bool :=
  startsWithS line "+++ b/"

/-- Whether the added-line branch reads `current_file` on this stripped code:
the class-definition pattern, the print-call pattern, or the
assignment/expression pattern matched. -/
def engReadsCurrentFile (code : String) : Bool :=
  (matchKwIdent "class".toList [':', '('] code.toList).isSome
  || searchPrintCall code.toList
  || (code.toList.contains '=' && !startsWithS code "#")

/-- Whether processing this diff line reads `current_file`. -/
def lineReadsCF (line : String) : Bool :=
  isAddedLineB line && engReadsCurrentFile (pyStrip (String.mk (line.toList.drop 1)))

/-- The precondition under which `english_summary_from_patch` is total: every
line that reads `current_file` is preceded by some `+++ b/` header line.  The
boolean argument records whether a header has been seen so far. -/
def safeLinesB : Bool → List String → Bool
  | _, [] => true
  | seen, l :: ls => (!lineReadsCF l || seen) && safeLinesB (seen || isHeaderB l) ls

/-- The `(path, size)` entry `size_checks_for_files` produces for one listed
path: present exactly when the path exists and its size exceeds the
500 KiB threshold. -/
def szEntry (fs : String → Option Nat) (p : String) : Option (String × Nat) :=
  match fs p with
  | some sz => if 500 * 1024 < sz then some (p, sz) else none
  | none => none

/-! ## `build_review_recommendations` -/

/-- Case-insensitive search for `password|secret|api_key|token` in the diff
text (`re.search(..., flags=re.IGNORECASE)`). -/
def secretsMatch (patch : String) : Bool :=
  let lp := pyLower patch
  containsStr lp "password" || containsStr lp "secret" ||
    containsStr lp "api_key" || containsStr lp "token"

/-- Non-emptiness of
`re.findall(r'^\+.*def\s+([A-Za-z_]\w*)\s*\(', patch, flags=re.MULTILINE)`:
some line of the patch starts with `+` and contains the function-definition
pattern after it. -/
def hasAddedFuncLine (patch : String) : Bool :=
  (splitOnChar '\n' patch.toList).any fun l =>
    match l with
    | '+' :: rest => searchDefPattern rest
    | _ => false

/-- Rule 7's recommendation string. -/
def secretsRec : String :=
  "Possible secrets detected in diff — ensure secrets are stored in secure secrets manager and not committed."

/-- Rule 4's recommendation string. -/
def missingTestsRec : String :=
  "Code changes detected without test changes — add unit/integration tests focused on the modified modules."

/-- `build_review_recommendations(changed_files, patch, todos, binaries,
heavy_files)`.  `cm` is the output of `commit_message_hint()` (the latest
commit message, already stripped), an external input. -/
def build_review_recommendations (changed_files : List String) (patch : String)
    (todos binaries : List String) (heavy_files : List (String × Nat))
    (cm : String) : List String :=
  (if todos = [] then []
   else ["Resolve TODO/FIXME items before merging; they often indicate incomplete logic or edge cases."])
  ++ (if binaries = [] then []
      else ["Binary files changed — ensure these are intended (e.g., models, images). Prefer storing large artifacts in releases or object storage."])
  ++ (if heavy_files = [] then []
      else ["Large file changes detected; consider storing large assets outside the repo (S3/GCS) and reference them instead."])
  ++ (if simple_test_detection changed_files then [missingTestsRec] else [])
  ++ (if cm = "" || ((pySplitlines cm).headD "").length < 10 then
        ["Commit message is short or missing. Use descriptive commit messages: [TYPE] scope: short description (e.g., feat(auth): add token refresh)."]
      else [])
  ++ (if hasAddedFuncLine patch then
        ["New functions added; ensure they include docstrings and are covered by unit tests."]
      else [])
  ++ (if secretsMatch patch then [secretsRec] else [])
  ++ ["Run automated linters/formatters (e.g., black/isort/flake8 for Python) and fail the CI on lint errors.",
      "For changes touching infra/CI/CD or dependencies, require at least one approving review and run full integration tests."]

/-! ## `build_markdown_report` -/

/-- The narrative placeholder rendered when the English summary is empty. -/
def noChangesPlaceholder : String :=
  "_No clear high-level changes detected by heuristics._"

/-- The `md` line list assembled by `build_markdown_report(stat, patch,
eng_summary, todos, binaries, heavy_files, changed_files, review_recs)`.
`branch` and `sha` are the module-level globals read from the environment and
`now` is `datetime.utcnow().isoformat() + "Z"`, evaluated at build time.
The `changed_files` argument is accepted and unused, as in the source. -/
def buildMarkdownLines (branch sha now stat patch : String)
    (eng_summary todos binaries : List String) (heavy_files : List (String × Nat))
    (changed_files : List String) (review_recs : List String) : List String :=
  let _ := changed_files
  ["# Code summary — `" ++ branch ++ "` @ `" ++ sha ++ "`",
   "*Generated: " ++ now ++ "*", ""]
  ++ (if stat = "" then ["_No file stat available._"]
      else ["## Changed files (stat)", "```", pyStrip stat, "```"])
  ++ [""]
  ++ (if eng_summary = [] then ["## English Summary (automated)", noChangesPlaceholder]
      else "## English Summary (automated)" :: eng_summary.map (fun s => "- " ++ s))
  ++ [""]
  ++ (if todos = [] then []
      else ("## TODO / FIXME found" :: (todos.take 20).map (fun t => "- `" ++ pyStrip t ++ "`")) ++ [""])
  ++ (if binaries = [] then []
      else ("## Binary files changed (warning)" :: binaries.map (fun b => "- " ++ b)) ++ [""])
  ++ (if heavy_files = [] then []
      else ("## Large file changes (>= 500 KB)"
              :: heavy_files.map (fun p => "- `" ++ p.1 ++ "` — " ++ toString p.2 ++ " bytes")) ++ [""])
  ++ ["## Review: Automated code & process recommendations", ""]
  ++ (if review_recs = [] then ["- No automatic recommendations generated."]
      else review_recs.map (fun r => "- " ++ r))
  ++ ["", "## Raw Diff", "```diff", pyStrip patch, "```"]

/-- `build_markdown_report(...)`: the joined markdown text, `"\n".join(md)`. -/
def build_markdown_report (branch sha now stat patch : String)
    (eng_summary todos binaries : List String) (heavy_files : List (String × Nat))
    (changed_files : List String) (review_recs : List String) : String :=
  String.intercalate "\n"
    (buildMarkdownLines branch sha now stat patch eng_summary todos binaries
      heavy_files changed_files review_recs)

/-! ## The `main()` pipeline (analyzer plus report builder) -/

/-- The analyzer/builder portion of `main()`: from the collected stat text
and diff patch (plus the external inputs: filesystem, commit message,
environment-derived `branch`/`sha`, build timestamp `now`, and the
set-iteration order `setEnum`) to the markdown report text.  `none` models
the `NameError` escaping from `english_summary_from_patch`. -/
def summarizePipeline (setEnum : List String → List String)
    (fs : String → Option Nat) (branch sha now cm stat patch : String) :
    Option String :=
  let binaries := detect_binary_files patch
  let changed_files := if stat = "" then [] else list_changed_files_from_stat stat
  let heavy_files := size_checks_for_files fs changed_files
  (english_summary_from_patch setEnum patch).map fun r =>
    let review_recs :=
      build_review_recommendations changed_files patch r.2.1 binaries heavy_files cm
    build_markdown_report branch sha now stat patch r.1 r.2.1 binaries heavy_files
      changed_files review_recs

/-! ## Helper lemmas -/

theorem countOcc_append [DecidableEq α] (a : α) (l₁ l₂ : List α) :
    countOcc a (l₁ ++ l₂) = countOcc a l₁ + countOcc a l₂ := by
  induction l₁ with
  | nil => simp [countOcc]
  | cons x xs ih => simp [countOcc, ih]; omega

theorem countOcc_eq_zero_of_not_mem [DecidableEq α] {a : α} {l : List α}
    (h : a ∉ l) : countOcc a l = 0 := by
  induction l with
  | nil => rfl
  | cons x xs ih =>
    simp only [List.mem_cons, not_or] at h
    have hxa : ¬ x = a := fun hx => h.1 hx.symm
    simp [countOcc, ih h.2, hxa]

theorem countOcc_ite_singleton [DecidableEq α] (a b : α) (c : Prop) [Decidable c] :
    countOcc a (if c then [b] else []) = if c then (if b = a then 1 else 0) else 0 := by
  split <;> simp [countOcc]

theorem dedupAux_count_le_one (l : List String) :
    ∀ acc, (∀ s, countOcc s acc ≤ 1) →
      ∀ s, countOcc s (l.foldl dedupStep acc) ≤ 1 := by
  induction l with
  | nil => intro acc h s; exact h s
  | cons x xs ih =>
    intro acc h s
    rw [List.foldl_cons]
    by_cases hx : x ∈ acc
    · rw [show dedupStep acc x = acc from by simp [dedupStep, hx]]
      exact ih acc h s
    · rw [show dedupStep acc x = acc ++ [x] from by simp [dedupStep, hx]]
      refine ih (acc ++ [x]) ?_ s
      intro t
      rw [countOcc_append]
      by_cases ht : x = t
      · subst ht
        simp [countOcc, countOcc_eq_zero_of_not_mem hx]
      · have h0 : countOcc t [x] = 0 := by simp [countOcc, ht]
        rw [h0]
        simpa using h t

theorem dedupKeepFirst_count_le_one (l : List String) (s : String) :
    countOcc s (dedupKeepFirst l) ≤ 1 := by
  refine dedupAux_count_le_one l [] ?_ s
  intro t; simp [countOcc]

theorem size_checks_eq_filterMap_aux (fs : String → Option Nat) (l : List String) :
    ∀ acc, l.foldl
      (fun heavy p =>
        match fs p with
        | some sz => if 500 * 1024 < sz then heavy ++ [(p, sz)] else heavy
        | none => heavy) acc = acc ++ l.filterMap (szEntry fs) := by
  induction l with
  | nil => intro acc; simp
  | cons x xs ih =>
    intro acc
    simp only [List.foldl_cons, List.filterMap_cons]
    rcases hx : fs x with _ | sz
    · simpa [szEntry, hx] using ih acc
    · by_cases hsz : 500 * 1024 < sz
      · simp [szEntry, hx, hsz, ih (acc ++ [(x, sz)])]
      · simp [szEntry, hx, hsz, ih acc]

theorem size_checks_eq_filterMap (fs : String → Option Nat) (l : List String) :
    size_checks_for_files fs l = l.filterMap (szEntry fs) := by
  simpa using size_checks_eq_filterMap_aux fs l []

theorem countOcc_cons [DecidableEq α] (a x : α) (xs : List α) :
    countOcc a (x :: xs) = (if x = a then 1 else 0) + countOcc a xs := rfl

theorem countOcc_size_checks (fs : String → Option Nat) (l : List String)
    (p : String) (sz : Nat) :
    countOcc (p, sz) (size_checks_for_files fs l) =
      if fs p = some sz ∧ 500 * 1024 < sz then countOcc p l else 0 := by
  rw [size_checks_eq_filterMap]
  induction l with
  | nil => simp [countOcc]
  | cons x xs ih =>
    simp only [List.filterMap_cons]
    rcases hx : szEntry fs x with _ | y
    · rw [ih]
      by_cases hp : x = p
      · subst hp
        have hcond : ¬(fs x = some sz ∧ 500 * 1024 < sz) := by
          rintro ⟨h1, h2⟩
          simp [szEntry, h1, h2] at hx
        simp [hcond]
      · simp [countOcc_cons, hp]
    · obtain ⟨hfx, hbig, hy1⟩ : fs x = some y.2 ∧ 500 * 1024 < y.2 ∧ y.1 = x := by
        rcases hfx : fs x with _ | sz'
        · simp [szEntry, hfx] at hx
        · simp only [szEntry, hfx] at hx
          by_cases hsz' : 500 * 1024 < sz'
          · rw [if_pos hsz'] at hx
            obtain rfl : y = (x, sz') := (Option.some.inj hx).symm
            exact ⟨rfl, hsz', rfl⟩
          · rw [if_neg hsz'] at hx
            simp at hx
      rw [countOcc_cons, countOcc_cons, ih]
      by_cases hp : x = p
      · subst hp
        by_cases hsz : y.2 = sz
        · have hy' : y = (x, sz) := by
            rw [← hy1, ← hsz]
          have hcond : fs x = some sz ∧ 500 * 1024 < sz := by
            rw [← hsz]
            exact ⟨hfx, hbig⟩
          simp [hy', hcond]
        · have hyne : ¬ y = (x, sz) := by
            intro h
            exact hsz (by rw [h])
          have hcond : ¬(fs x = some sz ∧ 500 * 1024 < sz) := by
            rintro ⟨h1, _⟩
            rw [hfx] at h1
            exact hsz (Option.some.inj h1)
          simp [hyne, hcond]
      · have hyne : ¬ y = (p, sz) := by
          intro h
          exact hp (by rw [← hy1, h])
        simp [hyne, hp]

/-! ## Claim theorems -/

/-- Claim C10 (confirmed): when the document-renderer dependency (reportlab)
is unavailable, `dump_pdf_from_markdown` returns instead of failing, takes
the fallback branch, and the contents written to the target path equal the
markdown text exactly. -/
theorem c10_fallback_writes_markdown (md_text : String) :
    dump_pdf_from_markdown false md_text = (PdfResult.fallbackText md_text, false) ∧
      writtenFallbackText (dump_pdf_from_markdown false md_text).1 = some md_text :=
  ⟨rfl, rfl⟩

/-- Claim C6 (confirmed): the changed-file-path parser excludes every line
matching `^\d+ file(s)? changed`, and returns the (stripped) text before the
`|` separator of each remaining non-empty stripped line, in order; on
`"a.py | 3 ++-\n1 file changed, 3 insertions(+)"` it returns exactly
`["a.py"]`. -/
theorem c6_stat_parser_spec :
    (∀ stat_text, list_changed_files_from_stat stat_text = changedFilesSpec stat_text) ∧
      list_changed_files_from_stat "a.py | 3 ++-\n1 file changed, 3 insertions(+)" = ["a.py"] := by
  constructor
  · intro stat_text
    unfold list_changed_files_from_stat changedFilesSpec
    generalize pySplitlines stat_text = lines
    suffices h : ∀ (ls : List String) (acc : List String),
        ls.foldl
          (fun files line =>
            let line := pyStrip line
            if line = "" then files
            else if isSummaryLineB line then files
            else files ++ [statLinePath line]) acc =
          acc ++ (((ls.map pyStrip).filter (fun l => !(l = "") && !(isSummaryLineB l))).map statLinePath) by
      simpa using h lines []
    intro ls
    induction ls with
    | nil => intro acc; simp
    | cons x xs ih =>
      intro acc
      simp only [List.foldl_cons, List.map_cons, List.filter_cons]
      by_cases h1 : pyStrip x = ""
      · simp [h1, ih acc]
      · by_cases h2 : isSummaryLineB (pyStrip x)
        · simp [h1, h2, ih acc]
        · simp [h1, h2, ih (acc ++ [statLinePath (pyStrip x)])]
  · decide

/-- Claim C9 (confirmed): `size_checks_for_files` keeps, in list order,
exactly the listed paths that exist with size strictly above
`500 * 1024 = 512000` bytes, paired with their exact byte size; a path listed
once with such a size yields exactly one entry, and a path that does not
exist on disk yields no entry (and no error: the function is total). -/
theorem c9_large_file_entries :
    (∀ (fs : String → Option Nat) (changed_files : List String),
        size_checks_for_files fs changed_files = changed_files.filterMap (szEntry fs)) ∧
    (∀ (fs : String → Option Nat) (changed_files : List String) (p : String) (sz : Nat),
        countOcc (p, sz) (size_checks_for_files fs changed_files) =
          if fs p = some sz ∧ 500 * 1024 < sz then countOcc p changed_files else 0) ∧
    (∀ (fs : String → Option Nat) (changed_files : List String) (p : String),
        fs p = none → ∀ sz, (p, sz) ∉ size_checks_for_files fs changed_files) := by
  refine ⟨size_checks_eq_filterMap, countOcc_size_checks, ?_⟩
  intro fs changed_files p hp sz hmem
  rw [size_checks_eq_filterMap] at hmem
  rcases List.mem_filterMap.mp hmem with ⟨q, _, hq⟩
  rcases hfq : fs q with _ | sz'
  · simp [szEntry, hfq] at hq
  · simp only [szEntry, hfq] at hq
    by_cases hsz' : 500 * 1024 < sz'
    · simp only [if_pos hsz', Option.some.injEq] at hq
      have : q = p := congrArg Prod.fst hq
      rw [this] at hfq
      rw [hfq] at hp
      cases hp
    · simp [hsz'] at hq

/-- Witness for C9: with a filesystem where `big.bin` has 600000 bytes and
`gone.txt` does not exist, the list `["big.bin", "gone.txt"]` yields exactly
one entry `("big.bin", 600000)` and no entry for `gone.txt`. -/
theorem c9_large_file_entries_witness :
    countOcc ("big.bin", 600000)
        (size_checks_for_files
          (fun p => if p = "big.bin" then some 600000 else none)
          ["big.bin", "gone.txt"]) = 1 ∧
      ("gone.txt", 600000) ∉ size_checks_for_files
          (fun p => if p = "big.bin" then some 600000 else none)
          ["big.bin", "gone.txt"] := by
  constructor
  · rw [c9_large_file_entries.2.1]
    decide
  · exact c9_large_file_entries.2.2 _ _ "gone.txt" (by decide) 600000

/-- The recommendation list as a disjointly-built concatenation, with
`countOcc` distributed over the eight rule segments. -/
theorem countOcc_build_review_recommendations (s : String)
    (changed_files : List String) (patch : String) (todos binaries : List String)
    (heavy_files : List (String × Nat)) (cm : String) :
    countOcc s (build_review_recommendations changed_files patch todos binaries heavy_files cm) =
      (if todos = [] then 0 else if "Resolve TODO/FIXME items before merging; they often indicate incomplete logic or edge cases." = s then 1 else 0)
      + (if binaries = [] then 0 else if "Binary files changed — ensure these are intended (e.g., models, images). Prefer storing large artifacts in releases or object storage." = s then 1 else 0)
      + (if heavy_files = [] then 0 else if "Large file changes detected; consider storing large assets outside the repo (S3/GCS) and reference them instead." = s then 1 else 0)
      + (if simple_test_detection changed_files then if missingTestsRec = s then 1 else 0 else 0)
      + (if cm = "" || ((pySplitlines cm).headD "").length < 10 then if "Commit message is short or missing. Use descriptive commit messages: [TYPE] scope: short description (e.g., feat(auth): add token refresh)." = s then 1 else 0 else 0)
      + (if hasAddedFuncLine patch then if "New functions added; ensure they include docstrings and are covered by unit tests." = s then 1 else 0 else 0)
      + (if secretsMatch patch then if secretsRec = s then 1 else 0 else 0)
      + (if "Run automated linters/formatters (e.g., black/isort/flake8 for Python) and fail the CI on lint errors." = s then 1 else 0)
      + (if "For changes touching infra/CI/CD or dependencies, require at least one approving review and run full integration tests." = s then 1 else 0) := by
  unfold build_review_recommendations
  rw [countOcc_append, countOcc_append, countOcc_append, countOcc_append,
    countOcc_append, countOcc_append, countOcc_append]
  have e1 : ∀ (c : Prop) [Decidable c] (b : String),
      countOcc s (if c then [] else [b]) = if c then 0 else if b = s then 1 else 0 := by
    intro c _ b
    split <;> simp [countOcc]
  have e2 : ∀ (c : Bool) (b : String),
      countOcc s (if c then [b] else []) = if c then if b = s then 1 else 0 else 0 := by
    intro c b
    cases c <;> simp [countOcc]
  rw [e1, e1, e1, e2, e2, e2, e2]
  simp [countOcc]
  omega

/-- Claim C7 (confirmed): the recommendation list contains the
possible-secrets warning exactly once when the diff text contains
(case-insensitively) any of the substrings "password", "secret", "api_key",
"token", and does not contain it otherwise — one warning regardless of the
number of occurrences. -/
theorem c7_secret_warning_once (changed_files : List String) (patch : String)
    (todos binaries : List String) (heavy_files : List (String × Nat)) (cm : String) :
    countOcc secretsRec
        (build_review_recommendations changed_files patch todos binaries heavy_files cm) =
      if secretsMatch patch then 1 else 0 := by
  rw [countOcc_build_review_recommendations]
  have h1 : ("Resolve TODO/FIXME items before merging; they often indicate incomplete logic or edge cases." = secretsRec) = False := by
    simp [secretsRec]
  have h2 : ("Binary files changed — ensure these are intended (e.g., models, images). Prefer storing large artifacts in releases or object storage." = secretsRec) = False := by
    simp [secretsRec]
  have h3 : ("Large file changes detected; consider storing large assets outside the repo (S3/GCS) and reference them instead." = secretsRec) = False := by
    simp [secretsRec]
  have h4 : (missingTestsRec = secretsRec) = False := by
    simp [missingTestsRec, secretsRec]
  have h5 : ("Commit message is short or missing. Use descriptive commit messages: [TYPE] scope: short description (e.g., feat(auth): add token refresh)." = secretsRec) = False := by
    simp [secretsRec]
  have h6 : ("New functions added; ensure they include docstrings and are covered by unit tests." = secretsRec) = False := by
    simp [secretsRec]
  have h8 : ("Run automated linters/formatters (e.g., black/isort/flake8 for Python) and fail the CI on lint errors." = secretsRec) = False := by
    simp [secretsRec]
  have h9 : ("For changes touching infra/CI/CD or dependencies, require at least one approving review and run full integration tests." = secretsRec) = False := by
    simp [secretsRec]
  simp [h1, h2, h3, h4, h5, h6, h8, h9]

/-- Claim C8 (confirmed): the missing-tests recommendation appears exactly
once when at least one changed path looks like source (`src/` or `app/`
prefix, or the `.py` source-file extension) and no changed path looks like a
test (`tests/` or `test_` prefix, or a `/tests/` segment), and is absent
otherwise; `["src/app.py"]` alone triggers it and
`["src/app.py", "tests/test_app.py"]` does not. -/
theorem c8_missing_tests_once :
    (∀ changed_files : List String,
        simple_test_detection changed_files = true ↔
          ((∃ p ∈ changed_files,
              (startsWithS p "src/" || startsWithS p "app/" || endsWithS p ".py") = true) ∧
            ¬ ∃ p ∈ changed_files,
              (startsWithS p "tests/" || startsWithS p "test_" || containsStr p "/tests/") = true)) ∧
    (∀ (changed_files : List String) (patch : String) (todos binaries : List String)
        (heavy_files : List (String × Nat)) (cm : String),
        countOcc missingTestsRec
            (build_review_recommendations changed_files patch todos binaries heavy_files cm) =
          if simple_test_detection changed_files then 1 else 0) ∧
    simple_test_detection ["src/app.py"] = true ∧
    simple_test_detection ["src/app.py", "tests/test_app.py"] = false := by
  refine ⟨?_, ?_, by decide, by decide⟩
  · intro changed_files
    simp [simple_test_detection, List.any_eq_true]
  · intro changed_files patch todos binaries heavy_files cm
    rw [countOcc_build_review_recommendations]
    have h1 : ("Resolve TODO/FIXME items before merging; they often indicate incomplete logic or edge cases." = missingTestsRec) = False := by
      simp [missingTestsRec]
    have h2 : ("Binary files changed — ensure these are intended (e.g., models, images). Prefer storing large artifacts in releases or object storage." = missingTestsRec) = False := by
      simp [missingTestsRec]
    have h3 : ("Large file changes detected; consider storing large assets outside the repo (S3/GCS) and reference them instead." = missingTestsRec) = False := by
      simp [missingTestsRec]
    have h5 : ("Commit message is short or missing. Use descriptive commit messages: [TYPE] scope: short description (e.g., feat(auth): add token refresh)." = missingTestsRec) = False := by
      simp [missingTestsRec]
    have h6 : ("New functions added; ensure they include docstrings and are covered by unit tests." = missingTestsRec) = False := by
      simp [missingTestsRec]
    have h7 : (secretsRec = missingTestsRec) = False := by
      simp [secretsRec, missingTestsRec]
    have h8 : ("Run automated linters/formatters (e.g., black/isort/flake8 for Python) and fail the CI on lint errors." = missingTestsRec) = False := by
      simp [missingTestsRec]
    have h9 : ("For changes touching infra/CI/CD or dependencies, require at least one approving review and run full integration tests." = missingTestsRec) = False := by
      simp [missingTestsRec]
    simp [h1, h2, h3, h5, h6, h7, h8, h9]

/-- Claim C2 counterexample: a concrete report built with an empty TODO list
(and empty binary-file and large-file lists) contains no TODO / FIXME
section at all — neither the section header nor any placeholder line — so
the empty-backed sections are omitted rather than rendered as an explicit
"none found" placeholder.  The full line list is computed explicitly. -/
theorem c2_empty_sections_omitted :
    buildMarkdownLines "main" "abc1234" "2025-01-01T00:00:00Z" "a.py | 1 +" "+x = 1"
        ["Added/changed assignment or expression in `a.py`: `x = 1`"] [] [] [] ["a.py"] ["r1"] =
      ["# Code summary — `main` @ `abc1234`", "*Generated: 2025-01-01T00:00:00Z*", "",
       "## Changed files (stat)", "```", "a.py | 1 +", "```", "",
       "## English Summary (automated)",
       "- Added/changed assignment or expression in `a.py`: `x = 1`", "",
       "## Review: Automated code & process recommendations", "", "- r1", "",
       "## Raw Diff", "```diff", "+x = 1", "```"] ∧
    "## TODO / FIXME found" ∉
      buildMarkdownLines "main" "abc1234" "2025-01-01T00:00:00Z" "a.py | 1 +" "+x = 1"
        ["Added/changed assignment or expression in `a.py`: `x = 1`"] [] [] [] ["a.py"] ["r1"] ∧
    "## Binary files changed (warning)" ∉
      buildMarkdownLines "main" "abc1234" "2025-01-01T00:00:00Z" "a.py | 1 +" "+x = 1"
        ["Added/changed assignment or expression in `a.py`: `x = 1`"] [] [] [] ["a.py"] ["r1"] ∧
    "## Large file changes (>= 500 KB)" ∉
      buildMarkdownLines "main" "abc1234" "2025-01-01T00:00:00Z" "a.py | 1 +" "+x = 1"
        ["Added/changed assignment or expression in `a.py`: `x = 1`"] [] [] [] ["a.py"] ["r1"] := by
  refine ⟨by decide, by decide, by decide, by decide⟩

/-- Claim C2 amended: of the sections named by the claim only the stat block,
the narrative summary and the recommendations list render an explicit
placeholder when their backing data is empty, and the raw-diff section
renders in every report; the TODO, binary-file, and large-file sections are
omitted entirely when their backing lists are empty (last conjunct: the
complete line list for empty inputs, with no trace of those sections). -/
theorem c2_section_rendering :
    (∀ branch sha now stat patch eng_summary todos binaries heavy_files changed_files review_recs,
        "## Raw Diff" ∈ buildMarkdownLines branch sha now stat patch eng_summary todos
          binaries heavy_files changed_files review_recs) ∧
    (∀ branch sha now patch eng_summary todos binaries heavy_files changed_files review_recs,
        "_No file stat available._" ∈ buildMarkdownLines branch sha now "" patch eng_summary
          todos binaries heavy_files changed_files review_recs) ∧
    (∀ branch sha now stat patch todos binaries heavy_files changed_files review_recs,
        noChangesPlaceholder ∈ buildMarkdownLines branch sha now stat patch [] todos
          binaries heavy_files changed_files review_recs) ∧
    (∀ branch sha now stat patch eng_summary todos binaries heavy_files changed_files,
        "- No automatic recommendations generated." ∈ buildMarkdownLines branch sha now stat
          patch eng_summary todos binaries heavy_files changed_files []) ∧
    (∀ branch sha now patch changed_files,
        buildMarkdownLines branch sha now "" patch [] [] [] [] changed_files [] =
          ["# Code summary — `" ++ branch ++ "` @ `" ++ sha ++ "`",
           "*Generated: " ++ now ++ "*", "",
           "_No file stat available._", "",
           "## English Summary (automated)", noChangesPlaceholder, "",
           "## Review: Automated code & process recommendations", "",
           "- No automatic recommendations generated.", "",
           "## Raw Diff", "```diff", pyStrip patch, "```"]) := by
  refine ⟨?_, ?_, ?_, ?_, ?_⟩
  · intro branch sha now stat patch eng_summary todos binaries heavy_files changed_files review_recs
    simp [buildMarkdownLines]
  · intro branch sha now patch eng_summary todos binaries heavy_files changed_files review_recs
    simp [buildMarkdownLines]
  · intro branch sha now stat patch todos binaries heavy_files changed_files review_recs
    simp [buildMarkdownLines]
  · intro branch sha now stat patch eng_summary todos binaries heavy_files changed_files
    simp [buildMarkdownLines]
  · intro branch sha now patch changed_files
    rfl

theorem engHeaderStep_fields (st : EngState) (line : String) :
    (engHeaderStep st line).results = st.results ∧
    (engHeaderStep st line).addedFuncs = st.addedFuncs ∧
    (engHeaderStep st line).removedFuncs = st.removedFuncs ∧
    (engHeaderStep st line).todos = st.todos := by
  unfold engHeaderStep
  split <;> simp

theorem processEngLine_quiet (st : EngState) (line : String)
    (h1 : isAddedLineB line = false) (h2 : isRemovedLineB line = false) :
    processEngLine st line = some (engHeaderStep st line) := by
  unfold processEngLine
  simp only [isAddedLineB] at h1
  simp only [isRemovedLineB] at h2
  simp [isAddedLineB, isRemovedLineB, h1, h2]

theorem engFold_quiet (lines : List String) :
    ∀ st, (∀ l ∈ lines, isAddedLineB l = false ∧ isRemovedLineB l = false) →
      ∃ st', engFold st lines = some st' ∧
        st'.results = st.results ∧ st'.addedFuncs = st.addedFuncs ∧
        st'.removedFuncs = st.removedFuncs ∧ st'.todos = st.todos := by
  induction lines with
  | nil => intro st _; exact ⟨st, rfl, rfl, rfl, rfl, rfl⟩
  | cons l ls ih =>
    intro st h
    obtain ⟨h1, h2⟩ := h l (List.mem_cons_self l ls)
    have hrest : ∀ x ∈ ls, isAddedLineB x = false ∧ isRemovedLineB x = false :=
      fun x hx => h x (List.mem_cons_of_mem _ hx)
    obtain ⟨st', hfold, hr, ha, hrm, ht⟩ := ih (engHeaderStep st l) hrest
    obtain ⟨g1, g2, g3, g4⟩ := engHeaderStep_fields st l
    refine ⟨st', ?_, ?_, ?_, ?_, ?_⟩
    · simp only [engFold, processEngLine_quiet st l h1 h2]
      exact hfold
    · rw [hr, g1]
    · rw [ha, g2]
    · rw [hrm, g3]
    · rw [ht, g4]

/-- Claim C5 (confirmed): for every diff text in which no line satisfies the
added-line condition (starts with `+` but not `+++`) or the removed-line
condition (starts with `-` but not `---`), the analyzer succeeds with an
empty finding list and an empty TODO list, and the rendered narrative
section is the explicit no-clear-changes placeholder. -/
theorem c5_empty_diff_no_findings (setEnum : List String → List String)
    (patch_text : String)
    (h : ∀ l ∈ pySplitlines patch_text, isAddedLineB l = false ∧ isRemovedLineB l = false) :
    (∃ mods, english_summary_from_patch setEnum patch_text = some ([], [], mods)) ∧
    (∀ branch sha now stat binaries heavy_files changed_files review_recs,
        noChangesPlaceholder ∈ buildMarkdownLines branch sha now stat patch_text [] []
          binaries heavy_files changed_files review_recs) := by
  constructor
  · obtain ⟨st', hfold, hr, ha, hrm, ht⟩ := engFold_quiet (pySplitlines patch_text) initEngState h
    refine ⟨sortStrings st'.modifiedFiles, ?_⟩
    unfold english_summary_from_patch
    rw [hfold]
    simp only [initEngState] at hr ha hrm ht
    simp [hr, ha, hrm, ht, dedupKeepFirst]
  · intro branch sha now stat binaries heavy_files changed_files review_recs
    simp [buildMarkdownLines]

/-- Witness for C5 at the concrete diff `"+++ b/a.py\ncontext line"`, which
has no added or removed lines. -/
theorem c5_empty_diff_no_findings_witness :
    (∃ mods, english_summary_from_patch pySetList "+++ b/a.py\ncontext line" = some ([], [], mods)) ∧
      noChangesPlaceholder ∈ buildMarkdownLines "main" "abc1234" "T" ""
        "+++ b/a.py\ncontext line" [] [] [] [] [] [] :=
  ⟨(c5_empty_diff_no_findings pySetList "+++ b/a.py\ncontext line" (by decide)).1,
   (c5_empty_diff_no_findings pySetList "+++ b/a.py\ncontext line" (by decide)).2
     "main" "abc1234" "T" "" [] [] [] []⟩

theorem engHeaderStep_cf_mono (st : EngState) (line : String)
    (h : st.currentFile.isSome = true) :
    (engHeaderStep st line).currentFile.isSome = true := by
  unfold engHeaderStep
  split <;> simp [h]

theorem engHeaderStep_cf_of_header (st : EngState) (line : String)
    (h : isHeaderB line = true) :
    (engHeaderStep st line).currentFile.isSome = true := by
  simp only [isHeaderB] at h
  unfold engHeaderStep
  simp [h]

theorem engTodoStep_cf (st : EngState) (code : String) :
    (engTodoStep st code).currentFile = st.currentFile := by
  unfold engTodoStep
  split <;> rfl

theorem engClassStep_spec (st : EngState) (code : String)
    (h : st.currentFile.isSome = true ∨
          (matchKwIdent "class".toList [':', '('] code.toList).isSome = false) :
    ∃ st', engClassStep st code = some st' ∧ st'.currentFile = st.currentFile := by
  unfold engClassStep
  rcases hm : matchKwIdent "class".toList [':', '('] code.toList with _ | n
  · exact ⟨st, rfl, rfl⟩
  · rcases hcf : st.currentFile with _ | f
    · rcases h with h | h
      · rw [hcf] at h
        simp at h
      · rw [hm] at h
        simp at h
    · exact ⟨_, rfl, rfl⟩

theorem engPrintStep_spec (st : EngState) (code : String)
    (h : st.currentFile.isSome = true ∨ searchPrintCall code.toList = false) :
    ∃ st', engPrintStep st code = some st' ∧ st'.currentFile = st.currentFile := by
  unfold engPrintStep
  by_cases hp : searchPrintCall code.toList
  · rw [if_pos hp]
    rcases hcf : st.currentFile with _ | f
    · rcases h with h | h
      · rw [hcf] at h
        simp at h
      · rw [hp] at h
        cases h
    · exact ⟨_, rfl, rfl⟩
  · rw [if_neg hp]
    exact ⟨st, rfl, rfl⟩

theorem engAssignStep_spec (st : EngState) (code : String)
    (h : st.currentFile.isSome = true ∨
          (code.toList.contains '=' && !startsWithS code "#") = false) :
    ∃ st', engAssignStep st code = some st' ∧ st'.currentFile = st.currentFile := by
  unfold engAssignStep
  by_cases ha : (code.toList.contains '=' && !startsWithS code "#") = true
  · rw [if_pos ha]
    rcases hcf : st.currentFile with _ | f
    · rcases h with h | h
      · rw [hcf] at h
        simp at h
      · rw [ha] at h
        cases h
    · exact ⟨_, rfl, rfl⟩
  · rw [if_neg ha]
    exact ⟨st, rfl, rfl⟩

theorem engDefAddStep_cf (st : EngState) (code : String) :
    (engDefAddStep st code).currentFile = st.currentFile := by
  unfold engDefAddStep
  rcases hd : matchKwIdent "def".toList ['('] code.toList with _ | n <;> rfl

theorem engDefRemoveStep_cf (st : EngState) (code : String) :
    (engDefRemoveStep st code).currentFile = st.currentFile := by
  unfold engDefRemoveStep
  rcases hd : matchKwIdent "def".toList ['('] code.toList with _ | n <;> rfl

theorem engAddedStep_spec (st : EngState) (code : String)
    (h : st.currentFile.isSome = true ∨ engReadsCurrentFile code = false) :
    ∃ st', engAddedStep st code = some st' ∧ st'.currentFile = st.currentFile := by
  have hsplit : st.currentFile.isSome = true ∨
      ((matchKwIdent "class".toList [':', '('] code.toList).isSome = false ∧
        (searchPrintCall code.toList = false ∧
          (code.toList.contains '=' && !startsWithS code "#") = false)) := by
    rcases h with h | h
    · exact Or.inl h
    · right
      rw [engReadsCurrentFile, Bool.or_eq_false_iff, Bool.or_eq_false_iff] at h
      exact ⟨h.1.1, h.1.2, h.2⟩
  unfold engAddedStep
  obtain ⟨st2, e2, c2⟩ := engClassStep_spec (engDefAddStep st code) code
    (by rcases hsplit with h | h
        · exact Or.inl (by rw [engDefAddStep_cf]; exact h)
        · exact Or.inr (by rw [Bool.eq_false_iff]; simpa using h.1))
  rw [e2, Option.some_bind]
  obtain ⟨st4, e4, c4⟩ := engPrintStep_spec (engTodoStep st2 code) code
    (by rcases hsplit with h | h
        · refine Or.inl ?_
          rw [engTodoStep_cf, c2, engDefAddStep_cf]
          exact h
        · exact Or.inr h.2.1)
  rw [e4, Option.some_bind]
  obtain ⟨st5, e5, c5⟩ := engAssignStep_spec st4 code
    (by rcases hsplit with h | h
        · refine Or.inl ?_
          rw [c4, engTodoStep_cf, c2, engDefAddStep_cf]
          exact h
        · exact Or.inr h.2.2)
  refine ⟨st5, e5, ?_⟩
  rw [c5, c4, engTodoStep_cf, c2, engDefAddStep_cf]

theorem engRemovedStep_cf (st : EngState) (code : String) :
    (engRemovedStep st code).currentFile = st.currentFile := by
  unfold engRemovedStep
  rw [engTodoStep_cf, engDefRemoveStep_cf]

theorem processEngLine_total (st : EngState) (line : String)
    (h : st.currentFile.isSome = true ∨ lineReadsCF line = false) :
    ∃ st', processEngLine st line = some st' ∧
      st'.currentFile = (engHeaderStep st line).currentFile := by
  unfold processEngLine
  by_cases ha : isAddedLineB line = true
  · rw [if_pos ha]
    refine engAddedStep_spec (engHeaderStep st line) _ ?_
    rcases h with h | h
    · exact Or.inl (engHeaderStep_cf_mono st line h)
    · right
      simp only [lineReadsCF, ha, Bool.true_and] at h
      exact h
  · rw [if_neg ha]
    by_cases hr : isRemovedLineB line = true
    · rw [if_pos hr]
      exact ⟨_, rfl, engRemovedStep_cf _ _⟩
    · rw [if_neg hr]
      exact ⟨_, rfl, rfl⟩

theorem bool_or_elim {a b : Bool} (hab : (a || b) = true) : a = true ∨ b = true := by
  cases a
  · right
    simpa using hab
  · left
    rfl

theorem engFold_total (lines : List String) :
    ∀ (seen : Bool) (st : EngState), safeLinesB seen lines = true →
      (seen = true → st.currentFile.isSome = true) →
      (engFold st lines).isSome = true := by
  induction lines with
  | nil =>
    intro seen st _ _
    rfl
  | cons l ls ih =>
    intro seen st hsafe hinv
    have hsafe' : (!lineReadsCF l || seen) = true ∧ safeLinesB (seen || isHeaderB l) ls = true := by
      simpa [safeLinesB] using hsafe
    have hpt : st.currentFile.isSome = true ∨ lineReadsCF l = false := by
      rcases bool_or_elim hsafe'.1 with h | h
      · exact Or.inr (by simpa using h)
      · exact Or.inl (hinv h)
    obtain ⟨st', he, hcf⟩ := processEngLine_total st l hpt
    simp only [engFold, he]
    refine ih (seen || isHeaderB l) st' hsafe'.2 ?_
    intro hseen'
    rw [hcf]
    rcases bool_or_elim hseen' with hs | hh
    · exact engHeaderStep_cf_mono st l (hinv hs)
    · exact engHeaderStep_cf_of_header st l hh

/-- Claim C3 (confirmed): on the diff `"+x = 1"` — an added line matching the
assignment pattern with no preceding `+++ b/` header — the analyzer fails
(`NameError` on `current_file`, modelled as `none`); and the analyzer
returns a value on every diff in which each line reading `current_file` is
preceded by some `+++ b/` header line (the `safeLinesB` precondition). -/
theorem c3_name_error_totality :
    english_summary_from_patch pySetList "+x = 1" = none ∧
    (∀ (setEnum : List String → List String) (patch_text : String),
        safeLinesB false (pySplitlines patch_text) = true →
        (english_summary_from_patch setEnum patch_text).isSome = true) := by
  constructor
  · decide
  · intro setEnum patch_text hsafe
    have htot := engFold_total (pySplitlines patch_text) false initEngState hsafe
      (fun h => nomatch h)
    unfold english_summary_from_patch
    rcases ho : engFold initEngState (pySplitlines patch_text) with _ | st
    · rw [ho] at htot
      cases htot
    · rfl

/-- Witness for C3's totality at the concrete diff `"+++ b/a.py\n+x = 1"`,
where the header precedes the assignment line. -/
theorem c3_name_error_totality_witness :
    (english_summary_from_patch pySetList "+++ b/a.py\n+x = 1").isSome = true :=
  c3_name_error_totality.2 pySetList "+++ b/a.py\n+x = 1" (by decide)

/-- Claim C4 counterexample: on the diff
`"+++ b/a.py\n+def foo(x):\n+x = 1"` the function definition `foo` appears
on the diff line before the assignment line, yet the analyzer's finding
sequence lists the assignment entry first and the `Added function` entry
last — function findings are appended after all per-line findings, so the
sequence is not ordered by first appearance in the diff. -/
theorem c4_function_finding_order :
    english_summary_from_patch pySetList "+++ b/a.py\n+def foo(x):\n+x = 1" =
      some (["Added/changed assignment or expression in `a.py`: `x = 1`",
             "Added function `foo()`."], [], ["a.py"]) := by
  decide

/-- Claim C4 amended: function findings are de-duplicated — every entry of
the analyzer's finding sequence occurs at most once (so a name appearing on
several added (resp. removed) definition lines yields exactly one
`Added function` (resp. `Removed function`) entry), and the diff containing
`+def foo(x):` twice and `-def foo(x):`/`-def foo(z):`-style removals yields
exactly one entry per direction; but the sequence lists function findings
after all per-line findings rather than by first appearance in the diff. -/
theorem c4_function_findings_dedup :
    (∀ (setEnum : List String → List String) (patch_text : String) res,
        english_summary_from_patch setEnum patch_text = some res →
        ∀ s, countOcc s res.1 ≤ 1) ∧
    english_summary_from_patch pySetList
        "+++ b/a.py\n+def foo(x):\n+def foo(y):\n-def foo(x):\n-def foo(z):" =
      some (["Added function `foo()`.", "Removed function `foo()`."], [], ["a.py"]) := by
  constructor
  · intro setEnum patch_text res hres s
    unfold english_summary_from_patch at hres
    rcases ho : engFold initEngState (pySplitlines patch_text) with _ | st
    · rw [ho] at hres
      cases hres
    · rw [ho] at hres
      simp only [Option.map_some'] at hres
      rw [← Option.some.inj hres]
      exact dedupKeepFirst_count_le_one _ s
  · decide

/-- Witness for C4's de-duplication bound, at the concrete finding list the
analyzer produces for the double-added/double-removed `foo` diff. -/
theorem c4_function_findings_dedup_witness :
    countOcc "Added function `foo()`."
        ["Added function `foo()`.", "Removed function `foo()`."] ≤ 1 :=
  c4_function_findings_dedup.1 pySetList
    "+++ b/a.py\n+def foo(x):\n+def foo(y):\n-def foo(x):\n-def foo(z):"
    (["Added function `foo()`.", "Removed function `foo()`."], [], ["a.py"])
    (by decide) "Added function `foo()`."

/-- Claim C1 counterexample: two runs of the analyzer and report builder on
identical input (empty stat, empty patch, same environment, same commit
message, same filesystem, same set-iteration order) but at different
wall-clock times produce different report text — `build_markdown_report`
embeds `datetime.utcnow()` in the `*Generated: ...*` line, so the report is
not byte-identical across repeated runs. -/
theorem c1_report_differs_across_timestamps :
    summarizePipeline pySetList (fun _ => none) "main" "abc1234"
        "2025-01-01T00:00:00Z" "Add feature X to module" "" "" ≠
      summarizePipeline pySetList (fun _ => none) "main" "abc1234"
        "2025-01-01T00:00:01Z" "Add feature X to module" "" "" := by
  decide

/-- Claim C1 amended: the analyzer and report builder are a pure function of
the stat text, the diff patch, the environment (`branch`, `sha`), the commit
message, the filesystem contents, the per-process set-iteration order and
the generation timestamp: two runs agreeing on all of these produce
byte-identical report text.  (Across real runs the timestamp — and possibly
the hash-seed-dependent set order — differ, which is what the
counterexample exhibits.) -/
theorem c1_report_deterministic_given_timestamp
    (e₁ e₂ : List String → List String) (f₁ f₂ : String → Option Nat)
    (b₁ b₂ s₁ s₂ n₁ n₂ c₁ c₂ st₁ st₂ p₁ p₂ : String)
    (he : e₁ = e₂) (hf : f₁ = f₂) (hb : b₁ = b₂) (hs : s₁ = s₂) (hn : n₁ = n₂)
    (hc : c₁ = c₂) (hst : st₁ = st₂) (hp : p₁ = p₂) :
    summarizePipeline e₁ f₁ b₁ s₁ n₁ c₁ st₁ p₁ =
      summarizePipeline e₂ f₂ b₂ s₂ n₂ c₂ st₂ p₂ := by
  subst_vars
  rfl

/-- Witness for C1's amended determinism at concrete equal inputs. -/
theorem c1_report_deterministic_given_timestamp_witness :
    summarizePipeline pySetList (fun _ => none) "main" "abc1234" "T"
        "Add feature X to module" "" "+x = 1" =
      summarizePipeline pySetList (fun _ => none) "main" "abc1234" "T"
        "Add feature X to module" "" "+x = 1" :=
  c1_report_deterministic_given_timestamp pySetList pySetList
    (fun _ => none) (fun _ => none) "main" "main" "abc1234" "abc1234" "T" "T"
    "Add feature X to module" "Add feature X to module" "" "" "+x = 1" "+x = 1"
    rfl rfl rfl rfl rfl rfl rfl rfl
